import Mathlib

/-!
Shallow embedding of `combine_csv.py` (function
`combine_csv_to_excel_single_sheet`), the single-sheet CSV-to-Excel
combiner, together with proofs about its layout arithmetic, encoding
fallback, skip behaviour, exit codes and output path.

Text is modelled as `List Char`, raw file content as `List Nat` (byte
values), the worksheet as the list of cell-write events issued by
`worksheet.write`, and the run as a pure function from the command-line
arguments, the discovered CSV files and an I/O-failure flag to a result.
-/

namespace CombineCsv

/-- Splits a character list on a separator character, keeping empty
segments, like Python's `str.split(sep)`. -/
def splitOnChar (sep : Char) : List Char → List (List Char)
  | [] => [[]]
  | c :: cs =>
    let r := splitOnChar sep cs
    if c = sep then [] :: r
    else
      match r with
      | [] => [[c]]
      | g :: gs => (c :: g) :: gs

/-- Model of `os.path.basename`: the final path component, i.e. the text
after the last `/`. -/
def basename (p : List Char) : List Char :=
  (splitOnChar '/' p).getLastD []

/-- Model of `os.path.join dir name` for a relative `name`: `dir` and
`name` joined with a single `/`, with no extra separator when `dir`
already ends in one or is empty. -/
def joinPath (dir name : List Char) : List Char :=
  if dir = [] then name
  else if dir.getLast? = some '/' then dir ++ name
  else dir ++ '/' :: name

/-- The fixed output file name used at line 18 of `combine_csv.py`. -/
def outputName : List Char := "Combined_AWS_Reports.xlsx".toList

/-- Line 18: `output_filename = os.path.join(csv_directory, "Combined_AWS_Reports.xlsx")`. -/
def output_filename (csv_directory : List Char) : List Char :=
  joinPath csv_directory outputName

/-! ## Tabular data (the pandas `DataFrame` as used by this script) -/

/-- A scalar cell value as produced by the CSV parse: either missing
(pandas `NaN`, arising from an empty field) or a literal text value.
The script does no arithmetic on cell values, so the library's numeric
cell typing is irrelevant here and text suffices. -/
inductive Value
  | vnull
  | vstr (s : List Char)
deriving DecidableEq, Repr

/-- An in-memory table: ordered column names and ordered rows of values. -/
structure DataFrame where
  columns : List (List Char)
  rows : List (List Value)
deriving DecidableEq, Repr

/-- Errors raised by the modelled `pd.read_csv` parse stage. -/
inductive CsvError
  | emptyData
  | parserError
deriving DecidableEq, Repr

/-- One CSV field: an empty field parses to missing (`NaN`), anything
else to its literal text. -/
def parseCell (cs : List Char) : Value :=
  if cs = [] then .vnull else .vstr cs

/-- A data row is padded on the right to the expected field count with
missing values, as pandas pads short rows with `NaN`. -/
def padRow (n : Nat) (r : List (List Char)) : List Value :=
  r.map parseCell ++ List.replicate (n - r.length) Value.vnull

/-- The non-blank lines of a decoded file, in order: split on newline,
dropping empty lines (pandas skips blank lines and the empty tail after
a trailing newline). -/
def csvLines (cs : List Char) : List (List Char) :=
  (splitOnChar '\n' cs).filter (fun l => !l.isEmpty)

/-- Model of the parse stage of `pd.read_csv` on decoded text: with no
non-blank line at all it raises `EmptyDataError` (no columns to parse);
the first line is the header. The expected field count is the larger
of the header's and the first data row's: a later data row with more
fields than that (a ragged file) raises `ParserError`. Otherwise rows
are right-padded with missing values to the expected count, and when
the data rows are wider than the header the leading extra fields are
consumed as the implicit row index, which the frame's column values do
not include. -/
def parseCsv (cs : List Char) : Except CsvError DataFrame :=
  match csvLines cs with
  | [] => .error .emptyData
  | header :: rest =>
    let cols := splitOnChar ',' header
    let rawRows := rest.map (splitOnChar ',')
    let expected :=
      max cols.length ((rawRows.head?.map List.length).getD cols.length)
    if rawRows.any (fun r => decide (expected < r.length)) then
      .error .parserError
    else
      .ok ⟨cols, rawRows.map (fun r =>
        (padRow expected r).drop (expected - cols.length))⟩

/-! ## Byte decoding: UTF-8 with a Latin-1 fallback -/

/-- Fuel-indexed UTF-8 decoder core over byte values, returning the
decoded code points or `none` on any invalid sequence (continuation
byte out of place, overlong form, surrogate, out-of-range, truncation).
The fuel only bounds recursion; `utf8DecodeBytes` supplies enough. -/
def utf8Go : Nat → List Nat → Option (List Nat)
  | _, [] => some []
  | 0, _ :: _ => none
  | fuel + 1, b :: bs =>
    if b ≤ 0x7F then
      (utf8Go fuel bs).map (fun r => b :: r)
    else if 0xC2 ≤ b ∧ b ≤ 0xDF then
      match bs with
      | b1 :: tail =>
        if 0x80 ≤ b1 ∧ b1 ≤ 0xBF then
          (utf8Go fuel tail).map (fun r => ((b - 0xC0) * 64 + (b1 - 0x80)) :: r)
        else none
      | [] => none
    else if 0xE0 ≤ b ∧ b ≤ 0xEF then
      match bs with
      | b1 :: b2 :: tail =>
        let cp := (b - 0xE0) * 4096 + (b1 - 0x80) * 64 + (b2 - 0x80)
        if (0x80 ≤ b1 ∧ b1 ≤ 0xBF) ∧ (0x80 ≤ b2 ∧ b2 ≤ 0xBF) ∧
            0x800 ≤ cp ∧ ¬(0xD800 ≤ cp ∧ cp ≤ 0xDFFF) then
          (utf8Go fuel tail).map (fun r => cp :: r)
        else none
      | _ => none
    else if 0xF0 ≤ b ∧ b ≤ 0xF4 then
      match bs with
      | b1 :: b2 :: b3 :: tail =>
        let cp := (b - 0xF0) * 262144 + (b1 - 0x80) * 4096 +
          (b2 - 0x80) * 64 + (b3 - 0x80)
        if (0x80 ≤ b1 ∧ b1 ≤ 0xBF) ∧ (0x80 ≤ b2 ∧ b2 ≤ 0xBF) ∧
            (0x80 ≤ b3 ∧ b3 ≤ 0xBF) ∧ 0x10000 ≤ cp ∧ cp ≤ 0x10FFFF then
          (utf8Go fuel tail).map (fun r => cp :: r)
        else none
      | _ => none
    else none

/-- Decode a byte list as UTF-8 text, `none` on a decoding failure
(Python's `UnicodeDecodeError`). -/
def decodeUtf8 (bytes : List Nat) : Option (List Char) :=
  (utf8Go bytes.length bytes).map (fun cps => cps.map Char.ofNat)

/-- Decode a byte list as Latin-1 text: every byte value maps to the
code point of the same number, so on actual bytes (values below 256)
this never fails. -/
def decodeLatin1 (bytes : List Nat) : Option (List Char) :=
  if bytes.all (fun b => decide (b ≤ 255)) then
    some (bytes.map Char.ofNat)
  else none

/-! ## The per-file read with encoding fallback (lines 50-58) -/

/-- The pandas exceptions that can escape the per-file read. -/
inductive PdError
  | unicodeDecode
  | emptyData
  | parserError
deriving DecidableEq, Repr

/-- Outcome of the per-file `try`/`except` block at lines 50-58:
either a table (`df`), a caught `EmptyDataError` leading to
`continue`, or an uncaught exception that propagates to the outer
handler. -/
inductive ReadOutcome
  | ok (df : DataFrame)
  | skipEmpty
  | fatal (e : PdError)
deriving DecidableEq, Repr

/-- Outcome of the first `pd.read_csv(csv_file, encoding=utf-8)` call
as seen from its handlers: `EmptyDataError` is caught and turns into a
skip (line 56-58), `ParserError` is not handled and propagates. -/
def firstAttemptOutcome (cs : List Char) : ReadOutcome :=
  match parseCsv cs with
  | .ok df => .ok df
  | .error .emptyData => .skipEmpty
  | .error .parserError => .fatal .parserError

/-- Outcome of the retry `pd.read_csv(csv_file, encoding=latin-1)` at
line 55: it runs inside the `except UnicodeDecodeError` handler, so
none of its exceptions are caught — even `EmptyDataError` would
propagate from here. -/
def retryOutcome (cs : List Char) : ReadOutcome :=
  match parseCsv cs with
  | .ok df => .ok df
  | .error .emptyData => .fatal .emptyData
  | .error .parserError => .fatal .parserError

/-- Lines 50-58: read the file as UTF-8; on a `UnicodeDecodeError`
retry as Latin-1; a caught `EmptyDataError` from the first attempt
means the file is skipped. `fatal .unicodeDecode` is only reachable
when even the Latin-1 decode fails, which on actual bytes it cannot. -/
def tryReadCsv (bytes : List Nat) : ReadOutcome :=
  match decodeUtf8 bytes with
  | some cs => firstAttemptOutcome cs
  | none =>
    match decodeLatin1 bytes with
    | some cs => retryOutcome cs
    | none => .fatal .unicodeDecode

/-! ## The worksheet as a log of cell writes -/

/-- The four `workbook.add_format` styles created at lines 38-43. -/
inductive Fmt
  | sourceHeader
  | separatorFmt
  | tableHeader
  | dataFmt
deriving DecidableEq, Repr

/-- One `worksheet.write(row, col, content, fmt)` call. -/
structure WriteEvent where
  row : Nat
  col : Nat
  content : List Char
  fmt : Fmt
deriving DecidableEq, Repr

/-- The text written when a cell's value is missing versus present:
`df.fillna(chr-empty)` at line 75 turns missing values into the empty
string, and every other value is written literally. -/
def cellText : Value → List Char
  | .vnull => []
  | .vstr s => s

/-- The section label text of line 63. -/
def labelText (file_basename : List Char) : List Char :=
  "DATA DARI FILE: ".toList ++ file_basename

/-- The separator text of line 92. -/
def separatorText : List Char := "PEMISAH 1 ROW".toList

/-- Writes the cells of one worksheet row left to right from a start
column, one event per value, as the `enumerate` loops at lines 69-70
and 79-80 do. -/
def rowEvents (r : Nat) (fmt : Fmt) : Nat → List (List Char) → List WriteEvent
  | _, [] => []
  | c, s :: rest => ⟨r, c, s, fmt⟩ :: rowEvents r fmt (c + 1) rest

/-- Writes the data rows top to bottom from a start row (lines 75-81:
`current_row` starts at `data_start_row + 1` and increments per row). -/
def dataEvents : Nat → List (List Value) → List WriteEvent
  | _, [] => []
  | r, row :: rest =>
    rowEvents r .dataFmt 0 (row.map cellText) ++ dataEvents (r + 1) rest

/-- Line 87: `next_startrow = data_start_row + 1 + df.shape[0]` with
`data_start_row = startrow + 1` (line 66); this is the separator row. -/
def next_startrow (startrow : Nat) (df : DataFrame) : Nat :=
  (startrow + 1) + 1 + df.rows.length

/-- The cell writes issued for one file's section (lines 63-92): the
label at the cursor row, the column headers one row below, the data
rows below that, and the separator row after the last data row. -/
def sectionEvents (startrow : Nat) (file_basename : List Char) (df : DataFrame) :
    List WriteEvent :=
  ⟨startrow, 0, labelText file_basename, .sourceHeader⟩
    :: rowEvents (startrow + 1) .tableHeader 0 df.columns
    ++ dataEvents (startrow + 2) df.rows
    ++ [⟨next_startrow startrow df, 0, separatorText, .separatorFmt⟩]

/-! ## The per-file loop (lines 47-98) -/

/-- The per-file progress messages printed inside the loop: the skip
notice of line 57 and the success notice of line 98. -/
inductive LogMsg
  | skippedEmpty (path : List Char)
  | added (file_basename : List Char) (nextStart : Nat)
deriving DecidableEq, Repr

/-- One discovered CSV file: its path and its raw byte content. -/
structure FileInput where
  path : List Char
  bytes : List Nat
deriving DecidableEq, Repr

/-- The state carried across loop iterations: the cell writes so far,
the write cursor `startrow`, and the printed messages. -/
structure LoopState where
  events : List WriteEvent
  startrow : Nat
  logs : List LogMsg
deriving DecidableEq, Repr

/-- The loop of lines 47-98 over the discovered files: a skipped file
adds only a log message, a read file appends its section's writes and
advances the cursor to `next_startrow + 1` (line 96), and an uncaught
exception aborts the loop and propagates to the outer handler. -/
def processFiles : List FileInput → LoopState → Except PdError LoopState
  | [], st => .ok st
  | f :: rest, st =>
    match tryReadCsv f.bytes with
    | .skipEmpty =>
      processFiles rest { st with logs := st.logs ++ [.skippedEmpty f.path] }
    | .fatal e => .error e
    | .ok df =>
      let bn := basename f.path
      processFiles rest
        { events := st.events ++ sectionEvents st.startrow bn df
          startrow := next_startrow st.startrow df + 1
          logs := st.logs ++ [.added bn (next_startrow st.startrow df + 1)] }

/-! ## The whole run (lines 6-104) -/

/-- Result of one invocation of the script. `usageError` is the
missing-argument exit at line 15; `warnNoFiles` is the warned normal
return at lines 23-25; `excelError` is the outer `except` at lines
102-104 (workbook creation failure or any exception escaping the
loop); `success` carries the output path, the single sheet's name, its
cell writes and the printed per-file messages. -/
inductive RunResult
  | usageError
  | warnNoFiles
  | excelError
  | success (outPath : List Char) (sheetName : List Char)
      (events : List WriteEvent) (logs : List LogMsg)
deriving DecidableEq, Repr

/-- The whole program as a function of `sys.argv`, the files found by
`glob` (path plus content) and a flag for an I/O failure of the Excel
writer itself (creation or save). Follows lines 13-104 in order:
argument check, discovery-empty check, then the writer block whose
failures all land in the one outer `except`. -/
def combine_csv_to_excel_single_sheet (argv : List (List Char))
    (csvFiles : List FileInput) (ioFail : Bool) : RunResult :=
  if argv.length < 2 then .usageError
  else
    let csv_directory := argv.getD 1 []
    if csvFiles = [] then .warnNoFiles
    else if ioFail then .excelError
    else
      match processFiles csvFiles ⟨[], 0, []⟩ with
      | .error _ => .excelError
      | .ok st =>
        .success (output_filename csv_directory) "Combined_Data".toList
          st.events st.logs

/-- The process exit code of a run: `sys.exit(1)` at lines 15 and 104,
and an implicit 0 otherwise. -/
def exitCode : RunResult → Nat
  | .usageError => 1
  | .excelError => 1
  | _ => 0

/-- Whether the run reached a successful save of the output workbook. -/
def producesOutput : RunResult → Bool
  | .success _ _ _ _ => true
  | _ => false

/-- The cell writes of a successful run (empty for the other outcomes). -/
def runEvents : RunResult → List WriteEvent
  | .success _ _ evs _ => evs
  | _ => []

/-- Whether a write event is a section label (the `source_header_format`
style of line 63 is used only there). -/
def isLabel (e : WriteEvent) : Bool :=
  decide (e.fmt = Fmt.sourceHeader)

/-- The rows at which section labels were written, in write order. -/
def labelRows (evs : List WriteEvent) : List Nat :=
  (evs.filter isLabel).map WriteEvent.row

/-- Saving the workbook at the output path: the filesystem entry at
that path is replaced unconditionally, every other entry is kept. -/
def saveWorkbook (fs : List Char → Option (List WriteEvent))
    (path : List Char) (evs : List WriteEvent) :
    List Char → Option (List WriteEvent) :=
  fun q => if q = path then some evs else fs q

/-- UTF-8 bytes of an ASCII string (used only for concrete fixtures
whose characters are all ASCII, where the encoding is one byte per
character). -/
def asciiBytes (s : String) : List Nat :=
  s.toList.map Char.toNat

/-! ## Layout lemmas -/

theorem rowEvents_mem {r : Nat} {fmt : Fmt} :
    ∀ {c0 : Nat} {xs : List (List Char)} {e : WriteEvent},
      e ∈ rowEvents r fmt c0 xs → e.fmt = fmt ∧ e.row = r := by
  intro c0 xs
  induction xs generalizing c0 with
  | nil => intro e h; simp [rowEvents] at h
  | cons x rest ih =>
    intro e h
    simp only [rowEvents, List.mem_cons] at h
    rcases h with h | h
    · subst h; exact ⟨rfl, rfl⟩
    · exact ih h

theorem dataEvents_mem :
    ∀ {r : Nat} {rows : List (List Value)} {e : WriteEvent},
      e ∈ dataEvents r rows → e.fmt = .dataFmt ∧ r ≤ e.row ∧ e.row < r + rows.length := by
  intro r rows
  induction rows generalizing r with
  | nil => intro e h; simp [dataEvents] at h
  | cons row rest ih =>
    intro e h
    simp only [dataEvents, List.mem_append] at h
    rcases h with h | h
    · obtain ⟨hf, hr⟩ := rowEvents_mem h
      refine ⟨hf, by omega, by simp [hr, List.length_cons]⟩
    · obtain ⟨hf, hlo, hhi⟩ := ih h
      refine ⟨hf, by omega, by simp [List.length_cons]; omega⟩

theorem mem_sectionEvents_cases {S : Nat} {bn : List Char} {df : DataFrame}
    {e : WriteEvent} (h : e ∈ sectionEvents S bn df) :
    e = ⟨S, 0, labelText bn, .sourceHeader⟩ ∨
    e ∈ rowEvents (S + 1) .tableHeader 0 df.columns ∨
    e ∈ dataEvents (S + 2) df.rows ∨
    e = ⟨next_startrow S df, 0, separatorText, .separatorFmt⟩ := by
  simp only [sectionEvents, List.mem_cons, List.mem_append, List.mem_singleton] at h
  tauto

/-- C1: in the single-sheet writer, a section whose label is written at
row `S` for a table with `R` data rows has its column-header row at row
`S + 1`, its data rows within rows `S + 2` through `S + 1 + R`, its
separator row (text `PEMISAH 1 ROW`) at row `S + 2 + R`, and the cursor
for the next section's label is set to `S + 3 + R`. -/
theorem c1_section_layout (S : Nat) (bn : List Char) (df : DataFrame) :
    (⟨S, 0, labelText bn, .sourceHeader⟩ : WriteEvent) ∈ sectionEvents S bn df ∧
    (∀ e ∈ sectionEvents S bn df, e.fmt = .sourceHeader → e.row = S ∧ e.col = 0) ∧
    (∀ e ∈ sectionEvents S bn df, e.fmt = .tableHeader → e.row = S + 1) ∧
    (∀ e ∈ sectionEvents S bn df, e.fmt = .dataFmt →
      S + 2 ≤ e.row ∧ e.row ≤ S + 1 + df.rows.length) ∧
    (⟨S + 2 + df.rows.length, 0, separatorText, .separatorFmt⟩ : WriteEvent) ∈
      sectionEvents S bn df ∧
    (∀ e ∈ sectionEvents S bn df, e.fmt = .separatorFmt →
      e.row = S + 2 + df.rows.length ∧ e.col = 0) ∧
    next_startrow S df + 1 = S + 3 + df.rows.length := by
  have hsep : next_startrow S df = S + 2 + df.rows.length := by
    unfold next_startrow; omega
  refine ⟨?_, ?_, ?_, ?_, ?_, ?_, by unfold next_startrow; omega⟩
  · simp [sectionEvents]
  · intro e he hf
    rcases mem_sectionEvents_cases he with h | h | h | h
    · subst h; exact ⟨rfl, rfl⟩
    · exact absurd ((rowEvents_mem h).1.symm.trans hf) (by simp)
    · exact absurd ((dataEvents_mem h).1.symm.trans hf) (by simp)
    · subst h; simp at hf
  · intro e he hf
    rcases mem_sectionEvents_cases he with h | h | h | h
    · subst h; simp at hf
    · exact (rowEvents_mem h).2
    · exact absurd ((dataEvents_mem h).1.symm.trans hf) (by simp)
    · subst h; simp at hf
  · intro e he hf
    rcases mem_sectionEvents_cases he with h | h | h | h
    · subst h; simp at hf
    · exact absurd ((rowEvents_mem h).1.symm.trans hf) (by simp)
    · obtain ⟨_, hlo, hhi⟩ := dataEvents_mem h
      exact ⟨hlo, by omega⟩
    · subst h; simp at hf
  · rw [← hsep]
    simp [sectionEvents, List.mem_append]
  · intro e he hf
    rcases mem_sectionEvents_cases he with h | h | h | h
    · subst h; simp at hf
    · exact absurd ((rowEvents_mem h).1.symm.trans hf) (by simp)
    · exact absurd ((dataEvents_mem h).1.symm.trans hf) (by simp)
    · subst h; exact ⟨hsep, rfl⟩

/-- Closed instance of the layout theorem at a one-column, one-row
table placed at cursor row 0. -/
theorem c1_section_layout_witness :
    (⟨0, 0, labelText "a.csv".toList, Fmt.sourceHeader⟩ : WriteEvent) ∈
      sectionEvents 0 "a.csv".toList ⟨["h".toList], [[Value.vstr ['1']]]⟩ ∧
    next_startrow 0 ⟨["h".toList], [[Value.vstr ['1']]]⟩ + 1 = 0 + 3 + 1 :=
  ⟨(c1_section_layout 0 "a.csv".toList ⟨["h".toList], [[Value.vstr ['1']]]⟩).1,
   (c1_section_layout 0 "a.csv".toList ⟨["h".toList], [[Value.vstr ['1']]]⟩).2.2.2.2.2.2⟩

/-! ## Cursor monotonicity -/

theorem processFiles_startrow_mono :
    ∀ (files : List FileInput) (st st' : LoopState),
      processFiles files st = .ok st' → st.startrow ≤ st'.startrow := by
  intro files
  induction files with
  | nil =>
    intro st st' h
    simp only [processFiles] at h
    cases h
    exact le_refl _
  | cons f rest ih =>
    intro st st' h
    cases hr : tryReadCsv f.bytes with
    | skipEmpty =>
      simp only [processFiles, hr] at h
      simpa using ih _ _ h
    | fatal e =>
      simp only [processFiles, hr] at h
      exact absurd h (by simp)
    | ok df =>
      simp only [processFiles, hr] at h
      have hle := ih _ _ h
      simp only at hle
      unfold next_startrow at hle
      omega

/-- C7: the write cursor is carried across file iterations and only
ever advances: after a processed file with `R` data rows the cursor
moves from `S` to `S + 3 + R` (so by at least 3), and over any run of
the loop the final cursor is at least the initial one — it is never
reset. -/
theorem c7_cursor_monotone (S : Nat) (df : DataFrame) (files : List FileInput)
    (st st' : LoopState) (h : processFiles files st = .ok st') :
    next_startrow S df + 1 = S + 3 + df.rows.length ∧
    S + 3 ≤ next_startrow S df + 1 ∧
    st.startrow ≤ st'.startrow := by
  refine ⟨by unfold next_startrow; omega, by unfold next_startrow; omega, ?_⟩
  exact processFiles_startrow_mono files st st' h

/-- Closed instance of the cursor theorem: the empty loop on the
initial state, with a one-row table for the arithmetic part. -/
theorem c7_cursor_monotone_witness :
    next_startrow 5 ⟨["h".toList], [[Value.vstr ['1']]]⟩ + 1 = 5 + 3 + 1 ∧
    5 + 3 ≤ next_startrow 5 ⟨["h".toList], [[Value.vstr ['1']]]⟩ + 1 ∧
    (⟨[], 0, []⟩ : LoopState).startrow ≤ (⟨[], 0, []⟩ : LoopState).startrow :=
  c7_cursor_monotone 5 ⟨["h".toList], [[Value.vstr ['1']]]⟩ [] ⟨[], 0, []⟩ ⟨[], 0, []⟩ rfl

/-! ## Label row positions -/

theorem filter_isLabel_rowEvents {fmt : Fmt} (hf : fmt ≠ .sourceHeader) :
    ∀ (r c0 : Nat) (xs : List (List Char)),
      (rowEvents r fmt c0 xs).filter isLabel = [] := by
  intro r c0 xs
  induction xs generalizing c0 with
  | nil => simp [rowEvents]
  | cons x rest ih =>
    simp only [rowEvents, List.filter_cons]
    rw [if_neg (by simp [isLabel, hf]), ih]

theorem filter_isLabel_dataEvents :
    ∀ (r : Nat) (rows : List (List Value)),
      (dataEvents r rows).filter isLabel = [] := by
  intro r rows
  induction rows generalizing r with
  | nil => simp [dataEvents]
  | cons row rest ih =>
    simp only [dataEvents, List.filter_append]
    rw [filter_isLabel_rowEvents (by simp), ih, List.append_nil]

theorem labelRows_append (a b : List WriteEvent) :
    labelRows (a ++ b) = labelRows a ++ labelRows b := by
  simp [labelRows, List.filter_append]

theorem labelRows_section (S : Nat) (bn : List Char) (df : DataFrame) :
    labelRows (sectionEvents S bn df) = [S] := by
  simp only [sectionEvents, labelRows, List.filter_cons, List.filter_append]
  rw [if_pos (by simp [isLabel]), filter_isLabel_rowEvents (by simp),
    filter_isLabel_dataEvents]
  simp [isLabel]

/-- C2 counterexample: the claim predicts label rows `0` and `7` for
two files with 2 and 3 data rows, but the writer puts the second label
at row `5` (the advancement rule is `S + 3 + R`, not `S + 4 + R`). -/
theorem c2_label_rows_counterexample :
    labelRows (runEvents (combine_csv_to_excel_single_sheet
        ["prog".toList, "d".toList]
        [⟨"d/a.csv".toList, asciiBytes "h\n1\n2\n"⟩,
         ⟨"d/b.csv".toList, asciiBytes "h\n1\n2\n3\n"⟩] false)) = [0, 5] ∧
    ([0, 5] : List Nat) ≠ [0, 7] := by
  constructor
  · decide
  · decide

/-- C2 amended: for three files read into tables with `R1`, `R2`, `R3`
data rows, the single-sheet writer places the section label rows at
rows `0`, `R1 + 3` and `R1 + R2 + 6` (each section advances the cursor
by its row count plus 3, not plus 4); in particular two files with 2
and 3 data rows produce label rows 0 and 5. -/
theorem c2_label_rows_amended (argv : List (List Char)) (f1 f2 f3 : FileInput)
    (df1 df2 df3 : DataFrame) (hargv : 2 ≤ argv.length)
    (h1 : tryReadCsv f1.bytes = .ok df1) (h2 : tryReadCsv f2.bytes = .ok df2)
    (h3 : tryReadCsv f3.bytes = .ok df3) :
    labelRows (runEvents
        (combine_csv_to_excel_single_sheet argv [f1, f2, f3] false)) =
      [0, df1.rows.length + 3, df1.rows.length + df2.rows.length + 6] := by
  unfold combine_csv_to_excel_single_sheet
  rw [if_neg (by omega), if_neg (by simp)]
  simp only [Bool.false_eq_true, if_false]
  simp only [processFiles, h1, h2, h3]
  simp only [runEvents, labelRows_append, labelRows_section]
  unfold next_startrow
  simp only [List.nil_append, List.cons_append, labelRows,
    List.filter_nil, List.map_nil, List.cons.injEq, List.nil_append]
  exact ⟨trivial, by omega, by omega, trivial⟩

/-- Closed instance of the amended label-row theorem on two-row,
three-row and one-row fixtures. -/
theorem c2_label_rows_amended_witness :
    labelRows (runEvents (combine_csv_to_excel_single_sheet
        ["prog".toList, "d".toList]
        [⟨"d/a.csv".toList, asciiBytes "h\n1\n2\n"⟩,
         ⟨"d/b.csv".toList, asciiBytes "h\n1\n2\n3\n"⟩,
         ⟨"d/c.csv".toList, asciiBytes "h\n1\n"⟩] false)) = [0, 2 + 3, 2 + 3 + 6] :=
  c2_label_rows_amended ["prog".toList, "d".toList]
    ⟨"d/a.csv".toList, asciiBytes "h\n1\n2\n"⟩
    ⟨"d/b.csv".toList, asciiBytes "h\n1\n2\n3\n"⟩
    ⟨"d/c.csv".toList, asciiBytes "h\n1\n"⟩
    ⟨["h".toList], [[Value.vstr ['1']], [Value.vstr ['2']]]⟩
    ⟨["h".toList], [[Value.vstr ['1']], [Value.vstr ['2']], [Value.vstr ['3']]]⟩
    ⟨["h".toList], [[Value.vstr ['1']]]⟩
    (by decide) (by decide) (by decide) (by decide)

/-- C3 counterexample: a CSV with a header row (`id,name`) and zero
data rows is not skipped: it reads into a zero-row table, its section
is still written (label, two column-header cells and separator — four
cell writes), and the loop leaves the cursor at 3. -/
theorem c3_header_only_counterexample :
    tryReadCsv (asciiBytes "id,name\n") =
      .ok ⟨["id".toList, "name".toList], []⟩ ∧
    (runEvents (combine_csv_to_excel_single_sheet ["prog".toList, "d".toList]
        [⟨"d/a.csv".toList, asciiBytes "id,name\n"⟩] false)).length = 4 ∧
    processFiles [⟨"d/a.csv".toList, asciiBytes "id,name\n"⟩] ⟨[], 0, []⟩ =
      .ok ⟨sectionEvents 0 "a.csv".toList ⟨["id".toList, "name".toList], []⟩, 3,
        [.added "a.csv".toList 3]⟩ := by
  refine ⟨by decide, by decide, by rfl⟩

/-- C3 amended: the skipped files are those whose read raises
`EmptyDataError` — files with no parseable content at all, hence no
header row; such a file adds only a log message, writes nothing, and
leaves the cursor unchanged. Under a successful UTF-8 decode the skip
happens exactly when the parse finds no non-blank line; a file with a
header row but zero data rows is not skipped. -/
theorem c3_empty_skip_amended (f : FileInput) (rest : List FileInput)
    (st : LoopState) :
    (tryReadCsv f.bytes = .skipEmpty →
      processFiles (f :: rest) st =
        processFiles rest ⟨st.events, st.startrow,
          st.logs ++ [.skippedEmpty f.path]⟩) ∧
    (∀ cs, decodeUtf8 f.bytes = some cs →
      (tryReadCsv f.bytes = .skipEmpty ↔ parseCsv cs = .error .emptyData)) := by
  constructor
  · intro h
    simp only [processFiles, h]
  · intro cs hcs
    simp only [tryReadCsv, hcs, firstAttemptOutcome]
    cases hp : parseCsv cs with
    | ok df => simp
    | error e => cases e <;> simp

/-- Closed instance of the amended skip theorem: a fully empty file is
skipped by the loop, leaving cursor 0 and no write events. -/
theorem c3_empty_skip_amended_witness :
    processFiles [⟨"d/a.csv".toList, []⟩] ⟨[], 0, []⟩ =
      processFiles [] ⟨[], 0, [] ++ [.skippedEmpty "d/a.csv".toList]⟩ :=
  (c3_empty_skip_amended ⟨"d/a.csv".toList, []⟩ [] ⟨[], 0, []⟩).1 (by decide)

/-! ## Encoding fallback -/

theorem firstAttemptOutcome_ne_unicode (cs : List Char) :
    firstAttemptOutcome cs ≠ .fatal .unicodeDecode := by
  unfold firstAttemptOutcome
  cases hp : parseCsv cs with
  | ok df => simp
  | error e => cases e <;> simp

theorem retryOutcome_ne_unicode (cs : List Char) :
    retryOutcome cs ≠ .fatal .unicodeDecode := by
  unfold retryOutcome
  cases hp : parseCsv cs with
  | ok df => simp
  | error e => cases e <;> simp

/-- C4: the per-file read decodes UTF-8 first and keeps that attempt's
outcome whenever the decode succeeds; exactly when the UTF-8 decode
fails does it retry with Latin-1, and on actual byte values (at most
255) the Latin-1 decode always succeeds, so no decoding failure ever
escapes the read. -/
theorem c4_encoding_fallback (bytes : List Nat) (h : ∀ b ∈ bytes, b ≤ 255) :
    (∀ cs, decodeUtf8 bytes = some cs →
      tryReadCsv bytes = firstAttemptOutcome cs) ∧
    (decodeUtf8 bytes = none →
      tryReadCsv bytes = retryOutcome (bytes.map Char.ofNat)) ∧
    decodeLatin1 bytes = some (bytes.map Char.ofNat) ∧
    tryReadCsv bytes ≠ .fatal .unicodeDecode := by
  have hl : decodeLatin1 bytes = some (bytes.map Char.ofNat) := by
    unfold decodeLatin1
    rw [if_pos]
    simpa [List.all_eq_true] using h
  refine ⟨?_, ?_, hl, ?_⟩
  · intro cs hcs
    simp only [tryReadCsv, hcs]
  · intro hn
    simp only [tryReadCsv, hn, hl]
  · unfold tryReadCsv
    cases hu : decodeUtf8 bytes with
    | some cs => exact firstAttemptOutcome_ne_unicode cs
    | none => rw [hl]; exact retryOutcome_ne_unicode _

/-- Closed instance of the fallback theorem at a byte list that is not
valid UTF-8 (0xFF cannot begin a sequence) but decodes under Latin-1. -/
theorem c4_encoding_fallback_witness :
    decodeLatin1 [255, 65] = some ([255, 65].map Char.ofNat) ∧
    tryReadCsv [255, 65] ≠ .fatal .unicodeDecode :=
  ⟨(c4_encoding_fallback [255, 65] (by decide)).2.2.1,
   (c4_encoding_fallback [255, 65] (by decide)).2.2.2⟩

/-- C5: with the directory argument present and discovery finding no
CSV files, the run warns and returns normally — exit code 0 — and no
output file is produced, regardless of the writer flag (the writer is
never reached). -/
theorem c5_no_files (argv : List (List Char)) (ioFail : Bool)
    (h : 2 ≤ argv.length) :
    combine_csv_to_excel_single_sheet argv [] ioFail = .warnNoFiles ∧
    exitCode (combine_csv_to_excel_single_sheet argv [] ioFail) = 0 ∧
    producesOutput (combine_csv_to_excel_single_sheet argv [] ioFail) = false := by
  have h2 : ¬ (argv.length < 2) := by omega
  refine ⟨?_, ?_, ?_⟩ <;>
    simp [combine_csv_to_excel_single_sheet, h2, exitCode, producesOutput]

/-- Closed instance of the empty-discovery theorem, with the writer
failure flag set: still exit code 0 and no output. -/
theorem c5_no_files_witness :
    combine_csv_to_excel_single_sheet ["prog".toList, "d".toList] [] true =
      .warnNoFiles ∧
    exitCode (combine_csv_to_excel_single_sheet
      ["prog".toList, "d".toList] [] true) = 0 ∧
    producesOutput (combine_csv_to_excel_single_sheet
      ["prog".toList, "d".toList] [] true) = false :=
  c5_no_files ["prog".toList, "d".toList] true (by decide)

/-- C6 counterexample: a run whose directory argument is present and
whose workbook creation does not fail still exits with code 1, because
a ragged CSV — here a second data row with more fields than the header
and first data row established — raises an uncaught pandas
`ParserError` that lands only in the outer handler. -/
theorem c6_exit_code_counterexample :
    2 ≤ (["prog".toList, "d".toList] : List (List Char)).length ∧
    exitCode (combine_csv_to_excel_single_sheet ["prog".toList, "d".toList]
        [⟨"d/a.csv".toList, asciiBytes "h\n1\n2,3\n"⟩] false) = 1 ∧
    combine_csv_to_excel_single_sheet ["prog".toList, "d".toList]
        [⟨"d/a.csv".toList, asciiBytes "h\n1\n2,3\n"⟩] false = .excelError := by
  refine ⟨by decide, by decide, by decide⟩

/-- C6 amended: the run exits with code 1 exactly when the directory
argument is missing, or CSV files were found and either the Excel
writer fails or some file's read raises an exception not caught in the
loop (for example the parse error of a ragged CSV file); all other
runs terminate normally with exit code 0. -/
theorem c6_exit_code_amended (argv : List (List Char))
    (csvFiles : List FileInput) (ioFail : Bool) :
    exitCode (combine_csv_to_excel_single_sheet argv csvFiles ioFail) = 1 ↔
      (argv.length < 2 ∨
        (csvFiles ≠ [] ∧ (ioFail = true ∨
          ∃ e, processFiles csvFiles ⟨[], 0, []⟩ = .error e))) := by
  by_cases h1 : argv.length < 2
  · simp [combine_csv_to_excel_single_sheet, h1, exitCode]
  · by_cases h2 : csvFiles = []
    · simp [combine_csv_to_excel_single_sheet, h1, h2, exitCode]
    · by_cases h3 : ioFail = true
      · simp [combine_csv_to_excel_single_sheet, h1, h2, h3, exitCode]
      · cases hp : processFiles csvFiles ⟨[], 0, []⟩ with
        | error e =>
          simp only [combine_csv_to_excel_single_sheet, h1, h2, h3, hp,
            if_false, Bool.false_eq_true]
          simp [exitCode, h1, h2, h3]
        | ok st =>
          simp only [combine_csv_to_excel_single_sheet, h1, h2, h3, hp,
            if_false, Bool.false_eq_true]
          simp [exitCode, h1, h2, h3, hp]

/-- Closed instance of the amended exit-code theorem at a
missing-argument run. -/
theorem c6_exit_code_amended_witness :
    exitCode (combine_csv_to_excel_single_sheet ["prog".toList] [] false) = 1 ↔
      ((["prog".toList] : List (List Char)).length < 2 ∨
        (([] : List FileInput) ≠ [] ∧ ((false : Bool) = true ∨
          ∃ e, processFiles [] ⟨[], 0, []⟩ = .error e))) :=
  c6_exit_code_amended ["prog".toList] [] false

/-! ## Data cell contents -/

theorem rowEvents_get_mem {r : Nat} {fmt : Fmt} :
    ∀ {c0 j : Nat} {xs : List (List Char)} {s : List Char},
      xs.get? j = some s →
      (⟨r, c0 + j, s, fmt⟩ : WriteEvent) ∈ rowEvents r fmt c0 xs := by
  intro c0 j xs
  induction xs generalizing c0 j with
  | nil => intro s h; simp at h
  | cons x rest ih =>
    intro s h
    cases j with
    | zero =>
      simp only [List.get?] at h
      cases h
      simp [rowEvents]
    | succ j' =>
      simp only [List.get?] at h
      have hadd : c0 + (j' + 1) = (c0 + 1) + j' := by omega
      rw [hadd]
      exact List.mem_cons_of_mem _ (ih h)

theorem dataEvents_get_sub :
    ∀ {r i : Nat} {rows : List (List Value)} {row : List Value},
      rows.get? i = some row →
      ∀ e ∈ rowEvents (r + i) .dataFmt 0 (row.map cellText),
        e ∈ dataEvents r rows := by
  intro r i rows
  induction rows generalizing r i with
  | nil => intro row h; simp at h
  | cons hd tl ih =>
    intro row h e he
    cases i with
    | zero =>
      simp only [List.get?] at h
      cases h
      simp only [dataEvents, List.mem_append]
      exact Or.inl (by simpa using he)
    | succ i' =>
      simp only [List.get?] at h
      simp only [dataEvents, List.mem_append]
      refine Or.inr (ih h e ?_)
      have hadd : (r + 1) + i' = r + (i' + 1) := by omega
      rw [hadd]
      exact he

/-- C8: the data cell written at worksheet row `S + 2 + i`, column `j`
of a section starting at row `S` carries exactly the source table's
value at record `i`, column `j`, passed through the missing-value
fill: a missing value becomes the empty string (never a null marker)
and any other value is written literally — one worksheet row per
record, one cell per column value. -/
theorem c8_missing_values (S : Nat) (bn : List Char) (df : DataFrame)
    (i j : Nat) (row : List Value) (v : Value)
    (hi : df.rows.get? i = some row) (hj : row.get? j = some v) :
    (⟨S + 2 + i, j, cellText v, .dataFmt⟩ : WriteEvent) ∈ sectionEvents S bn df ∧
    cellText .vnull = [] ∧ (∀ s, cellText (.vstr s) = s) := by
  refine ⟨?_, rfl, fun s => rfl⟩
  have hmap : (row.map cellText).get? j = some (cellText v) := by
    rw [List.get?_eq_getElem?, List.getElem?_map, ← List.get?_eq_getElem?, hj]
    rfl
  have hrow := @rowEvents_get_mem (S + 2 + i) Fmt.dataFmt 0 j
    (row.map cellText) (cellText v) hmap
  rw [Nat.zero_add] at hrow
  have hdata := dataEvents_get_sub (r := S + 2) hi _ hrow
  simp only [sectionEvents, List.mem_cons, List.mem_append]
  tauto

/-- Closed instance of the data-cell theorem: a missing value in the
source row is written as the empty string at row 2, column 0. -/
theorem c8_missing_values_witness :
    (⟨0 + 2 + 0, 0, cellText .vnull, Fmt.dataFmt⟩ : WriteEvent) ∈
      sectionEvents 0 "a.csv".toList
        ⟨["a".toList, "b".toList], [[Value.vnull, Value.vstr ['x']]]⟩ ∧
    cellText .vnull = [] :=
  ⟨(c8_missing_values 0 "a.csv".toList
      ⟨["a".toList, "b".toList], [[Value.vnull, Value.vstr ['x']]]⟩
      0 0 [Value.vnull, Value.vstr ['x']] Value.vnull (by decide) (by decide)).1,
   (c8_missing_values 0 "a.csv".toList
      ⟨["a".toList, "b".toList], [[Value.vnull, Value.vstr ['x']]]⟩
      0 0 [Value.vnull, Value.vstr ['x']] Value.vnull (by decide) (by decide)).2.1⟩

/-- C9: every successful run's output path is exactly the given
directory joined with the fixed name `Combined_AWS_Reports.xlsx`, and
saving the workbook replaces whatever entry the filesystem previously
held at that path, consulting no confirmation. -/
theorem c9_output_path (argv : List (List Char)) (csvFiles : List FileInput)
    (ioFail : Bool) (p n : List Char) (evs : List WriteEvent) (lg : List LogMsg)
    (h : combine_csv_to_excel_single_sheet argv csvFiles ioFail =
      .success p n evs lg) :
    p = output_filename (argv.getD 1 []) ∧
    ∀ (fs : List Char → Option (List WriteEvent)),
      saveWorkbook fs p evs p = some evs := by
  refine ⟨?_, fun fs => by simp [saveWorkbook]⟩
  by_cases h1 : argv.length < 2
  · simp [combine_csv_to_excel_single_sheet, h1] at h
  · by_cases h2 : csvFiles = []
    · simp [combine_csv_to_excel_single_sheet, h1, h2] at h
    · by_cases h3 : ioFail = true
      · simp [combine_csv_to_excel_single_sheet, h1, h2, h3] at h
      · cases hp : processFiles csvFiles ⟨[], 0, []⟩ with
        | error e =>
          simp [combine_csv_to_excel_single_sheet, h1, h2, h3, hp] at h
        | ok st =>
          simp only [combine_csv_to_excel_single_sheet, h1, h2, h3, hp,
            if_false, Bool.false_eq_true] at h
          simp only [if_neg h1, if_neg h2, RunResult.success.injEq] at h
          exact h.1.symm

/-- Closed instance of the output-path theorem on an all-skipped run:
the path is the directory joined with the fixed name, and saving over
an arbitrary prior entry yields the new workbook. -/
theorem c9_output_path_witness :
    "d/Combined_AWS_Reports.xlsx".toList =
      output_filename (["prog".toList, "d".toList].getD 1 []) ∧
    saveWorkbook (fun _ => some [⟨9, 9, [], Fmt.dataFmt⟩])
      "d/Combined_AWS_Reports.xlsx".toList []
      "d/Combined_AWS_Reports.xlsx".toList = some [] :=
  ⟨(c9_output_path ["prog".toList, "d".toList] [⟨"d/a.csv".toList, []⟩] false
      "d/Combined_AWS_Reports.xlsx".toList "Combined_Data".toList []
      [.skippedEmpty "d/a.csv".toList] (by rfl)).1,
   (c9_output_path ["prog".toList, "d".toList] [⟨"d/a.csv".toList, []⟩] false
      "d/Combined_AWS_Reports.xlsx".toList "Combined_Data".toList []
      [.skippedEmpty "d/a.csv".toList] (by rfl)).2
     (fun _ => some [⟨9, 9, [], Fmt.dataFmt⟩])⟩

/-! ## Output on all-skipped runs -/

theorem processFiles_all_skip :
    ∀ (files : List FileInput) (st : LoopState),
      (∀ f ∈ files, tryReadCsv f.bytes = .skipEmpty) →
      ∃ lgs, processFiles files st = .ok ⟨st.events, st.startrow, lgs⟩ := by
  intro files
  induction files with
  | nil =>
    intro st h
    exact ⟨st.logs, rfl⟩
  | cons f rest ih =>
    intro st h
    have hf := h f (List.mem_cons_self _ _)
    obtain ⟨lgs, hl⟩ := ih ⟨st.events, st.startrow,
      st.logs ++ [.skippedEmpty f.path]⟩
      (fun g hg => h g (List.mem_cons_of_mem _ hg))
    exact ⟨lgs, by simp only [processFiles, hf]; exact hl⟩

/-- C10: when discovery finds at least one CSV file (and the writer
itself does not fail), the workbook with its single sheet
`Combined_Data` is created at the output path even if every discovered
file is skipped as empty: the run succeeds and the sheet holds no
write events at all. -/
theorem c10_all_skipped_output (argv : List (List Char))
    (csvFiles : List FileInput) (hargv : 2 ≤ argv.length)
    (hne : csvFiles ≠ [])
    (hskip : ∀ f ∈ csvFiles, tryReadCsv f.bytes = .skipEmpty) :
    ∃ lg, combine_csv_to_excel_single_sheet argv csvFiles false =
      .success (output_filename (argv.getD 1 []))
        "Combined_Data".toList [] lg := by
  have h1 : ¬ (argv.length < 2) := by omega
  obtain ⟨lgs, hl⟩ := processFiles_all_skip csvFiles ⟨[], 0, []⟩ hskip
  refine ⟨lgs, ?_⟩
  simp only [combine_csv_to_excel_single_sheet, h1, hne, hl,
    if_false, Bool.false_eq_true, if_neg h1, if_neg hne]

/-- Closed instance of the all-skipped theorem at a single fully empty
CSV file. -/
theorem c10_all_skipped_output_witness :
    ∃ lg, combine_csv_to_excel_single_sheet ["prog".toList, "d".toList]
        [⟨"d/a.csv".toList, []⟩] false =
      .success (output_filename "d".toList) "Combined_Data".toList [] lg :=
  c10_all_skipped_output ["prog".toList, "d".toList] [⟨"d/a.csv".toList, []⟩]
    (by decide) (by decide) (by decide)

end CombineCsv
